import Mathlib

/-!
Shallow embedding of the host-side orchestration layer of `randomx-rs`
(`src/lib.rs`), the Rust binding crate around the opaque RandomX engine.

The engine itself is out of scope (spec section 1); it is modeled as oracles:
* `H : Bytes → Digest` is the digest the engine computes for an input under the
  VM's current binding.  `randomx_calculate_hash` writes `H input` into the
  output buffer; an engine-internal failure leaves the buffer all zero, which
  is modeled by `H input = zeroDigest`.
* The pipelined calls follow the engine contract of spec section 6:
  `randomx_calculate_hash_first vm input` starts `input`;
  `randomx_calculate_hash_next vm input out` writes the digest of the pending
  input to `out` and starts `input`; `randomx_calculate_hash_last vm out`
  writes the digest of the pending input to `out`.
* Native pointers are modeled as `Nat`, with `0` playing the role of null.
* Machine integers (`u32`) are modeled as `Nat` with explicit `% 2 ^ 32`
  exactly where the Rust source performs `u32` arithmetic that can overflow.

Every operation that crosses the native boundary also returns the list of
engine calls it issued, so that statements about engine effects (pipeline
shape, flushing, absence of calls on failing branches) can be made.
-/

namespace RandomXRS

/-- Byte strings (`&[u8]`), bytes as `Nat`. -/
abbrev Bytes := List Nat

/-- A digest buffer (`[u8; RANDOMX_HASH_SIZE]`). -/
abbrev Digest := List Nat

/-- `RANDOMX_HASH_SIZE` from the engine bindings (32 in the reference engine). -/
def RANDOMX_HASH_SIZE : Nat := 32

/-- The all-zero digest buffer `[0; RANDOMX_HASH_SIZE]`. -/
def zeroDigest : Digest := List.replicate RANDOMX_HASH_SIZE 0

/-- `RandomXFlag`: a `u32` bit-set (the `bitflags!` struct in the source). -/
structure RandomXFlag where
  bits : Nat
deriving DecidableEq

/-- `RandomXFlag::FLAG_DEFAULT = 0b0000_0000`. -/
def RandomXFlag.FLAG_DEFAULT : RandomXFlag := ⟨0⟩

/-- `RandomXFlag::FLAG_LARGE_PAGES = 0b0000_0001`. -/
def RandomXFlag.FLAG_LARGE_PAGES : RandomXFlag := ⟨1⟩

/-- `RandomXFlag::FLAG_HARD_AES = 0b0000_0010`. -/
def RandomXFlag.FLAG_HARD_AES : RandomXFlag := ⟨2⟩

/-- `RandomXFlag::FLAG_FULL_MEM = 0b0000_0100`. -/
def RandomXFlag.FLAG_FULL_MEM : RandomXFlag := ⟨4⟩

/-- `RandomXFlag::FLAG_JIT = 0b0000_1000`. -/
def RandomXFlag.FLAG_JIT : RandomXFlag := ⟨8⟩

/-- `bitflags` `contains`: all bits of `other` are present in `self`. -/
def RandomXFlag.contains (self other : RandomXFlag) : Bool :=
  self.bits &&& other.bits == other.bits

/-- The `RandomXError` enum of the source (`TryFromIntError` carries no
    payload of interest here). -/
inductive RandomXError where
  | CreationError (msg : String)
  | FlagConfigError (msg : String)
  | ParameterError (msg : String)
  | TryFromIntError
  | Other (msg : String)
deriving DecidableEq

/-- Rust `Debug` rendering of a `RandomXError`, as interpolated by the
    `format!("Could not get dataset count: {e:?}")` call in
    `RandomXDataset::alloc`. -/
def RandomXError.debugFmt : RandomXError → String
  | .CreationError s => "CreationError(\"" ++ s ++ "\")"
  | .FlagConfigError s => "FlagConfigError(\"" ++ s ++ "\")"
  | .ParameterError s => "ParameterError(\"" ++ s ++ "\")"
  | .TryFromIntError => "TryFromIntError(TryFromIntError(()))"
  | .Other s => "Other(\"" ++ s ++ "\")"

/-- `RandomXCache`: the contents of the `Mutex<*mut randomx_cache>` cell inside
    the reference-counted `RandomXCacheInner`. -/
structure RandomXCache where
  cache_ptr : Nat
deriving DecidableEq

/-- `RandomXDatasetInner`: native dataset pointer, engine item count
    (`dataset_count : u32`), and the strong reference to the cache it was
    built from. -/
structure RandomXDataset where
  dataset_ptr : Nat
  dataset_count : Nat
  cache : RandomXCache
deriving DecidableEq

/-- Oracles for the engine calls used by dataset construction:
    `randomx_dataset_item_count` (a `c_ulong` value) and
    `randomx_alloc_dataset` (pointer per flag bits, `0` = null). -/
structure DatasetEnv where
  item_count : Nat
  alloc_result : Nat → Nat

/-- `RandomXDataset::count`: `randomx_dataset_item_count()`; `0` is reported
    as `Other`, and the non-Windows branch narrows the `c_ulong` through
    `u32::try_from` (failure becomes `TryFromIntError`). -/
def RandomXDataset.count (env : DatasetEnv) : Except RandomXError Nat :=
  match env.item_count with
  | 0 => .error (.Other "Dataset item count was 0")
  | x => if x < 2 ^ 32 then .ok x else .error .TryFromIntError

/-- `RandomXDataset::alloc`: query the item count (mapping any failure into
    `CreationError` with the `Debug`-formatted inner error), then
    `randomx_alloc_dataset`, failing with `CreationError` on a null pointer. -/
def RandomXDataset.alloc (env : DatasetEnv) (flags : RandomXFlag) (cache : RandomXCache) :
    Except RandomXError RandomXDataset :=
  match RandomXDataset.count env with
  | .error e => .error (.CreationError ("Could not get dataset count: " ++ e.debugFmt))
  | .ok item_count =>
    let test := env.alloc_result flags.bits
    if test = 0 then
      .error (.CreationError "Could not allocate dataset")
    else
      .ok { dataset_ptr := test, dataset_count := item_count, cache := cache }

/-- Engine calls issued by dataset initialization. -/
inductive DatasetCall where
  | init_dataset (dataset_ptr cache_ptr start item_count : Nat)
deriving DecidableEq

/-- `RandomXDataset::init start item_count`: the guard is the `u32` sum
    `start + item_count` of the source, which wraps modulo `2 ^ 32` (release
    semantics of Rust integer addition; a debug build would panic instead).
    On the passing branch it issues `randomx_init_dataset` with the bound
    cache's pointer; on the failing branch it issues no engine call. -/
def RandomXDataset.init (self : RandomXDataset) (start item_count : Nat) :
    List DatasetCall × Except RandomXError Unit :=
  if (start + item_count) % 2 ^ 32 ≤ self.dataset_count then
    ([.init_dataset self.dataset_ptr self.cache.cache_ptr start item_count], .ok ())
  else
    ([], .error (.CreationError ("start plus item_count must be less than dataset count: start: "
      ++ toString start ++ ", item_count: " ++ toString item_count ++ ", dataset_count: "
      ++ toString self.dataset_count)))

/-- `RandomXDataset::new flags cache start`: allocate, then initialize the
    full range `init start dataset_count`, returning the dataset. -/
def RandomXDataset.new (env : DatasetEnv) (flags : RandomXFlag) (cache : RandomXCache)
    (start : Nat) : List DatasetCall × Except RandomXError RandomXDataset :=
  match RandomXDataset.alloc env flags cache with
  | .error e => ([], .error e)
  | .ok result =>
    match result.init start result.dataset_count with
    | (tr, .ok _) => (tr, .ok result)
    | (tr, .error e) => (tr, .error e)

/-- Specification-side composition for dataset creation, following the spec's
    words: "convenience composition of allocate + full-range initialize
    starting at `start`", returning the initialized dataset when the
    composition succeeds and the composition's error otherwise. -/
def datasetCreateSpec (env : DatasetEnv) (flags : RandomXFlag) (cache : RandomXCache)
    (start : Nat) : List DatasetCall × Except RandomXError RandomXDataset :=
  match RandomXDataset.alloc env flags cache with
  | .error e => ([], .error e)
  | .ok ds =>
    let step := ds.init start ds.dataset_count
    (step.1, step.2.map fun _ => ds)

/-- `RandomXDataset::get_data`: null-handle check, `randomx_get_dataset_memory`
    (modeled by `getMemory`, `0` = null), then a fresh buffer of
    `dataset_count` bytes copied from native memory (`memByte` maps a native
    address to the byte stored there; `usize::try_from` on a `u32` cannot fail
    on the modeled host). -/
def RandomXDataset.get_data (getMemory : Nat → Nat) (memByte : Nat → Nat)
    (self : RandomXDataset) : Except RandomXError (List Nat) :=
  if self.dataset_ptr = 0 then
    .error (.Other "Dataset pointer is null")
  else
    let memory := getMemory self.dataset_ptr
    if memory = 0 then
      .error (.Other "Could not get dataset memory")
    else
      let size := self.dataset_count
      .ok ((List.range size).map fun j => memByte (memory + j))

/-- `RandomXVM`: flags, native VM pointer, and the held strong references. -/
structure RandomXVM where
  flags : RandomXFlag
  vm : Nat
  linked_cache : Option RandomXCache
  linked_dataset : Option RandomXDataset
deriving DecidableEq

/-- The catch-all arm of `RandomXVM::new`: read the cache pointer out of the
    lock (null when absent), take the dataset pointer (null when absent), call
    `randomx_create_vm` (modeled by the oracle `create_vm`, applied to the flag
    bits and the two pointers), and build the struct from whatever pointer the
    engine returned - the result of `randomx_create_vm` is never inspected. -/
def RandomXVM.build (create_vm : Nat → Nat → Nat → Nat) (flags : RandomXFlag)
    (cache : Option RandomXCache) (dataset : Option RandomXDataset) : RandomXVM :=
  let cache_ptr := (cache.map RandomXCache.cache_ptr).getD 0
  let dataset_ptr := (dataset.map RandomXDataset.dataset_ptr).getD 0
  let vm := create_vm flags.bits cache_ptr dataset_ptr
  { vm := vm, flags := flags, linked_cache := cache, linked_dataset := dataset }

/-- `RandomXVM::new`: the `match (cache, dataset)` of the source, with its two
    guarded arms, falling through to the catch-all construction. -/
def RandomXVM.new (create_vm : Nat → Nat → Nat → Nat) (flags : RandomXFlag)
    (cache : Option RandomXCache) (dataset : Option RandomXDataset) :
    Except RandomXError RandomXVM :=
  let is_full_mem := flags.contains RandomXFlag.FLAG_FULL_MEM
  match cache, dataset with
  | none, none => .error (.CreationError "Failed to allocate VM")
  | none, some d =>
    if !is_full_mem then
      .error (.FlagConfigError "No cache and FLAG_FULL_MEM not set")
    else
      .ok (RandomXVM.build create_vm flags none (some d))
  | some c, none =>
    if is_full_mem then
      .error (.FlagConfigError "No dataset and FLAG_FULL_MEM set")
    else
      .ok (RandomXVM.build create_vm flags (some c) none)
  | some c, some d => .ok (RandomXVM.build create_vm flags (some c) (some d))

/-- Engine calls issued by VM rebinding. -/
inductive VmCall where
  | set_cache (vm cache_ptr : Nat)
  | set_dataset (vm dataset_ptr : Nat)
deriving DecidableEq

/-- `RandomXVM::reinit_cache`: rejected with `FlagConfigError` when
    `FLAG_FULL_MEM` is set; otherwise `randomx_vm_set_cache` with the new
    cache's pointer and replacement of the held reference. -/
def RandomXVM.reinit_cache (self : RandomXVM) (cache : RandomXCache) :
    List VmCall × Except RandomXError RandomXVM :=
  if self.flags.contains RandomXFlag.FLAG_FULL_MEM then
    ([], .error (.FlagConfigError "Cannot reinit cache with FLAG_FULL_MEM set"))
  else
    ([.set_cache self.vm cache.cache_ptr],
     .ok { self with linked_cache := some cache })

/-- `RandomXVM::reinit_dataset`: allowed exactly when `FLAG_FULL_MEM` is set;
    then `randomx_vm_set_dataset` with the new dataset's pointer and
    replacement of the held reference. -/
def RandomXVM.reinit_dataset (self : RandomXVM) (dataset : RandomXDataset) :
    List VmCall × Except RandomXError RandomXVM :=
  if self.flags.contains RandomXFlag.FLAG_FULL_MEM then
    ([.set_dataset self.vm dataset.dataset_ptr],
     .ok { self with linked_dataset := some dataset })
  else
    ([], .error (.FlagConfigError "Cannot reinit dataset without FLAG_FULL_MEM set"))

/-- Hashing engine calls: the single-shot `randomx_calculate_hash` and the
    pipelined `first` / `next` / `last` family. -/
inductive EngineCall where
  | calculate (input : Bytes)
  | first (input : Bytes)
  | next (input : Bytes)
  | last
deriving DecidableEq

/-- `RandomXVM::calculate_hash`: empty input is rejected before any engine
    call; otherwise `randomx_calculate_hash` writes `H input` into the zeroed
    buffer, and an all-zero buffer is reported as `Other`. -/
def calculate_hash (H : Bytes → Digest) (input : Bytes) :
    List EngineCall × Except RandomXError Digest :=
  if input.isEmpty then
    ([], .error (.ParameterError "input was empty"))
  else
    let arr := H input
    if arr = zeroDigest then
      ([.calculate input], .error (.Other "RandomX calculated hash was empty"))
    else
      ([.calculate input], .ok arr)

/-- The mutable state threaded through the `calculate_hash_set` loop:
    the input pending inside the engine pipeline, the output buffer `arr`,
    the `result` vector, and the engine-call trace. -/
structure SetState where
  pending : Option Bytes
  arr : Digest
  result : List Digest
  trace : List EngineCall
deriving DecidableEq

/-- What the engine writes through the output pointer on a `next` or `last`
    call: the digest of the pending input (the `none` case is unreachable in
    the code paths below and leaves the buffer unchanged). -/
def engineOut (H : Bytes → Digest) (pending : Option Bytes) (arr : Digest) : Digest :=
  match pending with
  | some p => H p
  | none => arr

/-- The body of the `for i in 0..iterations` loop of
    `RandomXVM::calculate_hash_set`, at index `i`.  `Sum.inl` is the
    fall-through to the next iteration; `Sum.inr` is an early `return Err`. -/
def hashSetBody (H : Bytes → Digest) (input : List Bytes) (i : Nat) (s : SetState) :
    SetState ⊕ (SetState × RandomXError) :=
  let iterations := input.length + 1
  let step :=
    if i = iterations - 1 then
      Sum.inl { s with arr := engineOut H s.pending s.arr, pending := none,
                       trace := s.trace ++ [EngineCall.last] }
    else
      let inp := input.getD i []
      if inp.isEmpty then
        if s.arr ≠ zeroDigest then
          Sum.inr ({ s with arr := engineOut H s.pending s.arr, pending := none,
                            trace := s.trace ++ [EngineCall.last] },
                   RandomXError.ParameterError "input was empty")
        else
          Sum.inr (s, RandomXError.ParameterError "input was empty")
      else if i = 0 then
        Sum.inl { s with pending := some inp, trace := s.trace ++ [EngineCall.first inp] }
      else
        Sum.inl { s with arr := engineOut H s.pending s.arr, pending := some inp,
                         trace := s.trace ++ [EngineCall.next inp] }
  match step with
  | Sum.inr r => Sum.inr r
  | Sum.inl s1 =>
    if i ≠ 0 then
      if s1.arr = zeroDigest then
        Sum.inr (s1, RandomXError.Other "RandomX hash was zero")
      else
        Sum.inl { s1 with result := s1.result ++ [s1.arr] }
    else
      Sum.inl s1

/-- The `calculate_hash_set` loop, running `hashSetBody` from index `i` for
    `fuel` more iterations (`fuel` is `iterations - i`); `none` means the loop
    ran to completion. -/
def hashSetLoop (H : Bytes → Digest) (input : List Bytes) :
    Nat → Nat → SetState → SetState × Option RandomXError
  | _, 0, s => (s, none)
  | i, fuel + 1, s =>
    match hashSetBody H input i s with
    | Sum.inl s1 => hashSetLoop H input (i + 1) fuel s1
    | Sum.inr (s1, e) => (s1, some e)

/-- Loop entry state: no pending computation, zeroed buffer, empty result
    vector, no engine calls issued. -/
def initialSetState : SetState :=
  { pending := none, arr := zeroDigest, result := [], trace := [] }

/-- `RandomXVM::calculate_hash_set`: empty set rejected; a single input goes
    through `calculate_hash`; otherwise the pipelined loop runs for
    `input.len() + 1` iterations. -/
def calculate_hash_set (H : Bytes → Digest) (input : List Bytes) :
    List EngineCall × Except RandomXError (List Digest) :=
  if input.isEmpty then
    ([], .error (.ParameterError "input was empty"))
  else if input.length = 1 then
    match calculate_hash H (input.getD 0 []) with
    | (tr, .ok hash) => (tr, .ok [hash])
    | (tr, .error e) => (tr, .error e)
  else
    match hashSetLoop H input 0 (input.length + 1) initialSetState with
    | (s, none) => (s.trace, .ok s.result)
    | (s, some e) => (s.trace, .error e)

/-! ### Concrete objects used by witnesses and counterexamples -/

/-- A concrete engine oracle: every digest is 32 one-bytes (never zero). -/
def onesOracle : Bytes → Digest := fun _ => List.replicate 32 1

/-- A concrete cache for witnesses. -/
def cacheW : RandomXCache := { cache_ptr := 11 }

/-- A concrete dataset for witnesses. -/
def datasetW : RandomXDataset := { dataset_ptr := 12, dataset_count := 5, cache := cacheW }

/-- A concrete light-mode VM for witnesses. -/
def vmLightW : RandomXVM :=
  { flags := RandomXFlag.FLAG_DEFAULT, vm := 13, linked_cache := some cacheW,
    linked_dataset := none }

/-- A concrete full-memory VM for witnesses. -/
def vmFastW : RandomXVM :=
  { flags := RandomXFlag.FLAG_FULL_MEM, vm := 14, linked_cache := none,
    linked_dataset := some datasetW }

/-- A concrete memory-pointer oracle (never null) for witnesses. -/
def getMemW : Nat → Nat := fun _ => 100

/-- A concrete native-memory content oracle for witnesses. -/
def memByteW : Nat → Nat := fun a => a

/-! ### Evaluation lemmas for one iteration of the `calculate_hash_set` loop -/

/-- Iteration `0` with a non-empty first input only starts the pipeline. -/
theorem hashSetBody_zero (H : Bytes → Digest) (input : List Bytes) (s : SetState)
    (h2 : 2 ≤ input.length) (h0 : input.getD 0 [] ≠ []) :
    hashSetBody H input 0 s =
      Sum.inl { s with pending := some (input.getD 0 []),
                       trace := s.trace ++ [EngineCall.first (input.getD 0 [])] } := by
  have hN : ¬((0 : Nat) = input.length) := by omega
  have hemp : ¬(input[0]?.getD [] = []) := by simpa using h0
  simp [hashSetBody, hN, hemp]

/-- A middle iteration (`1 ≤ i < N`, non-empty input, non-zero retrieved
    digest) retrieves the previous digest and starts input `i`. -/
theorem hashSetBody_mid (H : Bytes → Digest) (input : List Bytes) (i : Nat) (s : SetState)
    (h1 : 1 ≤ i) (hiN : i < input.length) (p : Bytes) (hpend : s.pending = some p)
    (hne : input.getD i [] ≠ []) (hnz : H p ≠ zeroDigest) :
    hashSetBody H input i s =
      Sum.inl { pending := some (input.getD i []), arr := H p,
                result := s.result ++ [H p],
                trace := s.trace ++ [EngineCall.next (input.getD i [])] } := by
  have hN : ¬(i = input.length) := by omega
  have h0 : ¬(i = 0) := by omega
  have hemp : ¬(input[i]?.getD [] = []) := by simpa using hne
  simp [hashSetBody, hN, h0, hemp, hpend, engineOut, hnz]

/-- A middle iteration whose retrieved digest is all-zero aborts with
    `Other`. -/
theorem hashSetBody_mid_zero (H : Bytes → Digest) (input : List Bytes) (i : Nat) (s : SetState)
    (h1 : 1 ≤ i) (hiN : i < input.length) (p : Bytes) (hpend : s.pending = some p)
    (hne : input.getD i [] ≠ []) (hz : H p = zeroDigest) :
    hashSetBody H input i s =
      Sum.inr ({ pending := some (input.getD i []), arr := H p,
                 result := s.result,
                 trace := s.trace ++ [EngineCall.next (input.getD i [])] },
               RandomXError.Other "RandomX hash was zero") := by
  have hN : ¬(i = input.length) := by omega
  have h0 : ¬(i = 0) := by omega
  have hemp : ¬(input[i]?.getD [] = []) := by simpa using hne
  simp [hashSetBody, hN, h0, hemp, hpend, engineOut, hz]

/-- The final iteration (`i = N`) retrieves the last digest. -/
theorem hashSetBody_last (H : Bytes → Digest) (input : List Bytes) (i : Nat) (s : SetState)
    (h1 : 1 ≤ i) (hiN : i = input.length) (p : Bytes) (hpend : s.pending = some p)
    (hnz : H p ≠ zeroDigest) :
    hashSetBody H input i s =
      Sum.inl { pending := none, arr := H p,
                result := s.result ++ [H p],
                trace := s.trace ++ [EngineCall.last] } := by
  have h0 : ¬(i = 0) := by omega
  have hnil : input ≠ [] := List.length_pos.mp (by omega)
  simp [hashSetBody, hiN, h0, hpend, engineOut, hnz, hnil]

/-- The final iteration with an all-zero retrieved digest aborts with
    `Other`. -/
theorem hashSetBody_last_zero (H : Bytes → Digest) (input : List Bytes) (i : Nat) (s : SetState)
    (h1 : 1 ≤ i) (hiN : i = input.length) (p : Bytes) (hpend : s.pending = some p)
    (hz : H p = zeroDigest) :
    hashSetBody H input i s =
      Sum.inr ({ pending := none, arr := H p,
                 result := s.result,
                 trace := s.trace ++ [EngineCall.last] },
               RandomXError.Other "RandomX hash was zero") := by
  have h0 : ¬(i = 0) := by omega
  have hnil : input ≠ [] := List.length_pos.mp (by omega)
  simp [hashSetBody, hiN, h0, hpend, engineOut, hz, hnil]

/-- An empty input at a non-final iteration while the buffer holds a previous
    digest: flush with a `last` call, then abort with `ParameterError`. -/
theorem hashSetBody_empty_flush (H : Bytes → Digest) (input : List Bytes) (i : Nat)
    (s : SetState) (hiN : i < input.length) (hemp : input.getD i [] = [])
    (harr : s.arr ≠ zeroDigest) :
    hashSetBody H input i s =
      Sum.inr ({ s with arr := engineOut H s.pending s.arr, pending := none,
                        trace := s.trace ++ [EngineCall.last] },
               RandomXError.ParameterError "input was empty") := by
  have hN : ¬(i = input.length) := by omega
  have hemp2 : input[i]?.getD [] = [] := by simpa using hemp
  simp [hashSetBody, hN, hemp2, harr]

/-- An empty input at a non-final iteration with a still-zero buffer: abort
    with `ParameterError` without any engine call. -/
theorem hashSetBody_empty_noflush (H : Bytes → Digest) (input : List Bytes) (i : Nat)
    (s : SetState) (hiN : i < input.length) (hemp : input.getD i [] = [])
    (harr : s.arr = zeroDigest) :
    hashSetBody H input i s =
      Sum.inr (s, RandomXError.ParameterError "input was empty") := by
  have hN : ¬(i = input.length) := by omega
  have hemp2 : input[i]?.getD [] = [] := by simpa using hemp
  simp [hashSetBody, hN, hemp2, harr]

/-! ### Behavior of the `calculate_hash_set` loop -/

/-- Running the loop from iteration `i` (`1 ≤ i ≤ N`) with input `i - 1`
    pending, when every remaining input is non-empty and every remaining
    digest is non-zero: the loop completes, appending the digests of inputs
    `i-1 .. N-1` to the result vector, and a `next` call per remaining start
    plus the final `last` call to the trace. -/
theorem hashSetLoop_ok (H : Bytes → Digest) (input : List Bytes) :
    ∀ fuel i s, fuel + i = input.length + 1 → 1 ≤ i → i ≤ input.length →
    s.pending = some (input.getD (i - 1) []) →
    (∀ j, i ≤ j → j < input.length → input.getD j [] ≠ []) →
    (∀ j, i - 1 ≤ j → j < input.length → H (input.getD j []) ≠ zeroDigest) →
    hashSetLoop H input i fuel s =
      ({ pending := none,
         arr := H (input.getD (input.length - 1) []),
         result := s.result ++ (input.drop (i - 1)).map H,
         trace := s.trace ++ (input.drop i).map EngineCall.next ++ [EngineCall.last] },
       none) := by
  intro fuel
  induction fuel with
  | zero => intro i s hfi h1 hN hpend hne hnz; omega
  | succ fuel ih =>
    intro i s hfi h1 hN hpend hne hnz
    have hlt : i - 1 < input.length := by omega
    have hi1 : i - 1 + 1 = i := by omega
    have hdrop1 : input.drop (i - 1) = input.getD (i - 1) [] :: input.drop i := by
      rw [List.getD_eq_getElem _ _ hlt, List.drop_eq_getElem_cons hlt, hi1]
    by_cases hiN : i = input.length
    · have hfuel : fuel = 0 := by omega
      subst hfuel
      have hbody := hashSetBody_last H input i s h1 hiN _ hpend
        (hnz (i - 1) (le_refl _) hlt)
      simp only [hashSetLoop, hbody]
      rw [hdrop1]
      have hdropN : input.drop i = [] := by
        rw [hiN]; simp
      simp [hdropN, hiN]
    · have hiN' : i < input.length := by omega
      have hbody := hashSetBody_mid H input i s h1 hiN' _ hpend
        (hne i (le_refl _) hiN') (hnz (i - 1) (le_refl _) hlt)
      have hdropi : input.drop i = input.getD i [] :: input.drop (i + 1) := by
        rw [List.getD_eq_getElem _ _ hiN', List.drop_eq_getElem_cons hiN']
      simp only [hashSetLoop, hbody]
      rw [ih (i + 1) _ (by omega) (by omega) (by omega)
        (by simp) (fun j hj hjN => hne j (by omega) hjN)
        (fun j hj hjN => hnz j (by omega) hjN)]
      simp only [Nat.add_sub_cancel]
      rw [hdrop1, hdropi]
      simp

/-- Conversely, if the loop runs to completion from iteration `i` with input
    `i - 1` pending, then the result vector received exactly the digests of
    inputs `i-1 .. N-1`, every such digest is non-zero, and every input
    checked on the way (`i .. N-1`) is non-empty. -/
theorem hashSetLoop_ok_inv (H : Bytes → Digest) (input : List Bytes) :
    ∀ fuel i s s', fuel + i = input.length + 1 → 1 ≤ i → i ≤ input.length →
    s.pending = some (input.getD (i - 1) []) →
    hashSetLoop H input i fuel s = (s', none) →
    s'.result = s.result ++ (input.drop (i - 1)).map H ∧
    (∀ j, i - 1 ≤ j → j < input.length → H (input.getD j []) ≠ zeroDigest) ∧
    (∀ j, i ≤ j → j < input.length → input.getD j [] ≠ []) := by
  intro fuel
  induction fuel with
  | zero => intro i s s' hfi h1 hN hpend _; omega
  | succ fuel ih =>
    intro i s s' hfi h1 hN hpend hrun
    have hlt : i - 1 < input.length := by omega
    have hi1 : i - 1 + 1 = i := by omega
    have hdrop1 : input.drop (i - 1) = input.getD (i - 1) [] :: input.drop i := by
      rw [List.getD_eq_getElem _ _ hlt, List.drop_eq_getElem_cons hlt, hi1]
    by_cases hiN : i = input.length
    · have hfuel : fuel = 0 := by omega
      subst hfuel
      by_cases hz : H (input.getD (i - 1) []) = zeroDigest
      · have hbody := hashSetBody_last_zero H input i s h1 hiN _ hpend hz
        simp [hashSetLoop, hbody] at hrun
      · have hbody := hashSetBody_last H input i s h1 hiN _ hpend hz
        simp only [hashSetLoop, hbody] at hrun
        injection hrun with hs' hnone
        subst hs'
        have hdropN : input.drop i = [] := by
          rw [hiN]; simp
        refine ⟨?_, ?_, ?_⟩
        · rw [hdrop1, hdropN]; simp
        · intro j hj hjN
          have : j = i - 1 := by omega
          rw [this]; exact hz
        · intro j hj hjN; omega
    · have hiN' : i < input.length := by omega
      by_cases hemp : input.getD i [] = []
      · rcases Classical.em (s.arr = zeroDigest) with harr | harr
        · have hbody := hashSetBody_empty_noflush H input i s hiN' hemp harr
          simp [hashSetLoop, hbody] at hrun
        · have hbody := hashSetBody_empty_flush H input i s hiN' hemp harr
          simp [hashSetLoop, hbody] at hrun
      · by_cases hz : H (input.getD (i - 1) []) = zeroDigest
        · have hbody := hashSetBody_mid_zero H input i s h1 hiN' _ hpend hemp hz
          simp [hashSetLoop, hbody] at hrun
        · have hbody := hashSetBody_mid H input i s h1 hiN' _ hpend hemp hz
          simp only [hashSetLoop, hbody] at hrun
          obtain ⟨hres, hnz', hne'⟩ := ih (i + 1) _ s' (by omega) (by omega) (by omega)
            (by simp) hrun
          refine ⟨?_, ?_, ?_⟩
          · rw [hres]
            simp only [Nat.add_sub_cancel]
            rw [hdrop1]
            simp
          · intro j hj hjN
            by_cases hji : j = i - 1
            · rw [hji]; exact hz
            · exact hnz' j (by omega) hjN
          · intro j hj hjN
            by_cases hji : j = i
            · rw [hji]; exact hemp
            · exact hne' j (by omega) hjN

/-- Running the loop from iteration `i` (`1 ≤ i ≤ p`) toward the first empty
    input at position `p` (`1 ≤ p < N`), with all earlier inputs non-empty and
    all digests retrieved on the way non-zero: the loop aborts with
    `ParameterError`, and issues a flushing `last` call exactly when a digest
    had already been retrieved into the buffer (that is, when `2 ≤ p`). -/
theorem hashSetLoop_empty_abort (H : Bytes → Digest) (input : List Bytes) (p : Nat)
    (hp1 : 1 ≤ p) (hpN : p < input.length) (hemp : input.getD p [] = [])
    (hne : ∀ j, j < p → input.getD j [] ≠ [])
    (hnz : ∀ j, j + 2 ≤ p → H (input.getD j []) ≠ zeroDigest) :
    ∀ fuel i s, fuel + i = input.length + 1 → 1 ≤ i → i ≤ p →
    s.pending = some (input.getD (i - 1) []) →
    s.arr = (if i = 1 then zeroDigest else H (input.getD (i - 2) [])) →
    (hashSetLoop H input i fuel s).2 = some (RandomXError.ParameterError "input was empty") ∧
    (hashSetLoop H input i fuel s).1.trace =
      s.trace ++ ((input.drop i).take (p - i)).map EngineCall.next ++
        (if 2 ≤ p then [EngineCall.last] else []) := by
  intro fuel
  induction fuel with
  | zero => intro i s hfi h1 hip hpend harr; omega
  | succ fuel ih =>
    intro i s hfi h1 hip hpend harr
    by_cases hip' : i = p
    · subst hip'
      by_cases hp2 : 2 ≤ i
      · have h1' : ¬(i = 1) := by omega
        have harr' : s.arr ≠ zeroDigest := by
          rw [harr]
          simp only [h1', if_false]
          exact hnz (i - 2) (by omega)
        have hbody := hashSetBody_empty_flush H input i s (by omega) hemp harr'
        simp only [hashSetLoop, hbody]
        simp [hp2, Nat.sub_self]
      · have h1' : i = 1 := by omega
        have harr' : s.arr = zeroDigest := by rw [harr]; simp [h1']
        have hbody := hashSetBody_empty_noflush H input i s (by omega) hemp harr'
        simp only [hashSetLoop, hbody]
        have hp2' : ¬(2 ≤ i) := hp2
        simp [hp2', Nat.sub_self]
    · have hiN' : i < input.length := by omega
      have hbody := hashSetBody_mid H input i s h1 hiN' _ hpend
        (hne i (by omega)) (hnz (i - 1) (by omega))
      simp only [hashSetLoop, hbody]
      have harith : i + 1 - 2 = i - 1 := by omega
      have h11 : ¬(i + 1 = 1) := by omega
      obtain ⟨herr, htrace⟩ := ih (i + 1)
        { pending := some (input.getD i []), arr := H (input.getD (i - 1) []),
          result := s.result ++ [H (input.getD (i - 1) [])],
          trace := s.trace ++ [EngineCall.next (input.getD i [])] }
        (by omega) (by omega) (by omega) (by simp) (by simp [h11, harith])
      refine ⟨herr, ?_⟩
      rw [htrace]
      have hdropi : input.drop i = input.getD i [] :: input.drop (i + 1) := by
        rw [List.getD_eq_getElem _ _ hiN', List.drop_eq_getElem_cons hiN']
      have htake : p - i = (p - (i + 1)) + 1 := by omega
      rw [hdropi, htake, List.take_succ_cons]
      simp

/-- Iteration `0` of the loop, from any entry state, when the first input is
    non-empty: the pipeline is started and the loop continues at iteration 1
    with input 0 pending. -/
theorem hashSetLoop_zero_step (H : Bytes → Digest) (input : List Bytes)
    (h2 : 2 ≤ input.length) (h0 : input.getD 0 [] ≠ []) (s : SetState) :
    hashSetLoop H input 0 (input.length + 1) s =
      hashSetLoop H input 1 input.length
        { s with pending := some (input.getD 0 []),
                 trace := s.trace ++ [EngineCall.first (input.getD 0 [])] } := by
  have hbody := hashSetBody_zero H input s h2 h0
  simp only [hashSetLoop, hbody]

/-! ### Claim theorems -/

/-- Claim C2: `RandomXVM::new` implements the construction validation matrix
    exactly: no cache and no dataset is `CreationError`; no cache, a dataset,
    full-memory unset is `FlagConfigError`; a cache, no dataset, full-memory
    set is `FlagConfigError`; every other combination constructs a VM bound
    to whichever resources are present and returns `Ok`. -/
theorem vm_new_validation_matrix (create_vm : Nat → Nat → Nat → Nat) (flags : RandomXFlag) :
    (RandomXVM.new create_vm flags none none =
      .error (.CreationError "Failed to allocate VM")) ∧
    (∀ d, flags.contains RandomXFlag.FLAG_FULL_MEM = false →
      RandomXVM.new create_vm flags none (some d) =
        .error (.FlagConfigError "No cache and FLAG_FULL_MEM not set")) ∧
    (∀ c, flags.contains RandomXFlag.FLAG_FULL_MEM = true →
      RandomXVM.new create_vm flags (some c) none =
        .error (.FlagConfigError "No dataset and FLAG_FULL_MEM set")) ∧
    (∀ cache dataset, (cache ≠ none ∨ dataset ≠ none) →
      ¬(cache = none ∧ flags.contains RandomXFlag.FLAG_FULL_MEM = false) →
      ¬(dataset = none ∧ flags.contains RandomXFlag.FLAG_FULL_MEM = true) →
      RandomXVM.new create_vm flags cache dataset =
        .ok { flags := flags,
              vm := create_vm flags.bits ((cache.map RandomXCache.cache_ptr).getD 0)
                      ((dataset.map RandomXDataset.dataset_ptr).getD 0),
              linked_cache := cache, linked_dataset := dataset }) := by
  refine ⟨rfl, ?_, ?_, ?_⟩
  · intro d hf
    simp [RandomXVM.new, hf]
  · intro c hf
    simp [RandomXVM.new, hf]
  · intro cache dataset h1 h2 h3
    cases cache with
    | none =>
      cases dataset with
      | none => simp at h1
      | some d =>
        have hf : flags.contains RandomXFlag.FLAG_FULL_MEM = true := by
          cases hcf : flags.contains RandomXFlag.FLAG_FULL_MEM
          · exact absurd ⟨rfl, hcf⟩ h2
          · rfl
        simp [RandomXVM.new, RandomXVM.build, hf]
    | some c =>
      cases dataset with
      | none =>
        have hf : flags.contains RandomXFlag.FLAG_FULL_MEM = false := by
          cases hcf : flags.contains RandomXFlag.FLAG_FULL_MEM
          · rfl
          · exact absurd ⟨rfl, hcf⟩ h3
        simp [RandomXVM.new, RandomXVM.build, hf]
      | some d => simp [RandomXVM.new, RandomXVM.build]

/-- Witness for claim C2: the second matrix row at a concrete dataset and
    default flags. -/
theorem vm_new_validation_matrix_witness :
    RandomXVM.new (fun _ _ _ => 7) RandomXFlag.FLAG_DEFAULT none (some datasetW) =
      .error (.FlagConfigError "No cache and FLAG_FULL_MEM not set") :=
  (vm_new_validation_matrix (fun _ _ _ => 7) RandomXFlag.FLAG_DEFAULT).2.1 datasetW (by decide)

/-- Claim C4: `RandomXDataset::new` is exactly the composition of `alloc`
    followed by a full-range `init start dataset_count`, returning the
    initialized dataset on success and the composition's error otherwise. -/
theorem dataset_new_is_alloc_then_full_init (env : DatasetEnv) (flags : RandomXFlag)
    (cache : RandomXCache) (start : Nat) :
    RandomXDataset.new env flags cache start = datasetCreateSpec env flags cache start := by
  unfold RandomXDataset.new datasetCreateSpec
  cases RandomXDataset.alloc env flags cache with
  | error e => rfl
  | ok ds =>
    dsimp only
    rcases h : ds.init start ds.dataset_count with ⟨tr, r⟩
    cases r <;> rfl

/-- Claim C5 evaluation: at `start = 4294967295` (`u32::MAX`) and
    `item_count = 1` the `u32` sum wraps to `0`, the bounds check passes, and
    `init` performs the engine call and returns `Ok` - no typed error is
    produced although the mathematical sum exceeds the 32-bit range (a debug
    build would panic on the overflowing addition instead). -/
theorem dataset_init_overflow_not_rejected :
    (({ dataset_ptr := 3, dataset_count := 100, cache := { cache_ptr := 4 } } :
        RandomXDataset).init 4294967295 1 =
      ([DatasetCall.init_dataset 3 4 4294967295 1], .ok ())) ∧
    4294967295 + 1 > 100 := ⟨rfl, by norm_num⟩

/-- Claim C6 evaluation: at `start = 4294967295`, `item_count = 2` on a
    dataset of 50 items the mathematical sum exceeds the total item count,
    yet the wrapped `u32` sum is `1 ≤ 50`, so `init` succeeds and issues the
    engine call instead of failing with `CreationError`. -/
theorem dataset_init_wrap_accepts_out_of_range :
    (({ dataset_ptr := 1, dataset_count := 50, cache := { cache_ptr := 2 } } :
        RandomXDataset).init 4294967295 2 =
      ([DatasetCall.init_dataset 1 2 4294967295 2], .ok ())) ∧
    4294967295 + 2 > 50 := ⟨rfl, by norm_num⟩

/-- Claim C7: `reinit_cache` fails with `FlagConfigError` exactly when
    `FLAG_FULL_MEM` is set and `reinit_dataset` exactly when it is unset; in
    the allowed case each swaps the resource's native handle into the live VM
    (the `set_cache` / `set_dataset` engine call) and replaces the held
    reference, returning `Ok`. -/
theorem vm_rebind_flag_constraints (vm : RandomXVM) (c : RandomXCache) (d : RandomXDataset) :
    (vm.flags.contains RandomXFlag.FLAG_FULL_MEM = true →
      vm.reinit_cache c =
        ([], .error (.FlagConfigError "Cannot reinit cache with FLAG_FULL_MEM set")) ∧
      vm.reinit_dataset d =
        ([VmCall.set_dataset vm.vm d.dataset_ptr],
         .ok { vm with linked_dataset := some d })) ∧
    (vm.flags.contains RandomXFlag.FLAG_FULL_MEM = false →
      vm.reinit_cache c =
        ([VmCall.set_cache vm.vm c.cache_ptr],
         .ok { vm with linked_cache := some c }) ∧
      vm.reinit_dataset d =
        ([], .error (.FlagConfigError "Cannot reinit dataset without FLAG_FULL_MEM set"))) := by
  constructor
  · intro hf
    constructor <;> simp [RandomXVM.reinit_cache, RandomXVM.reinit_dataset, hf]
  · intro hf
    constructor <;> simp [RandomXVM.reinit_cache, RandomXVM.reinit_dataset, hf]

/-- Witness for claim C7: the full-memory VM rejects `reinit_cache`; the
    light VM accepts it and swaps the handle. -/
theorem vm_rebind_flag_constraints_witness :
    vmFastW.reinit_cache cacheW =
      ([], .error (.FlagConfigError "Cannot reinit cache with FLAG_FULL_MEM set")) ∧
    vmLightW.reinit_cache cacheW =
      ([VmCall.set_cache vmLightW.vm cacheW.cache_ptr],
       .ok { vmLightW with linked_cache := some cacheW }) :=
  ⟨((vm_rebind_flag_constraints vmFastW cacheW datasetW).1 (by decide)).1,
   ((vm_rebind_flag_constraints vmLightW cacheW datasetW).2 (by decide)).1⟩

/-- Claim C9: `get_data` fails with `Other` when the native dataset handle is
    null or when the engine-returned memory pointer is null, and otherwise
    returns a fresh buffer whose length equals the dataset's item count
    interpreted as a byte length, holding a copy of native memory. -/
theorem dataset_get_data_spec (getMemory memByte : Nat → Nat) (ds : RandomXDataset) :
    (ds.dataset_ptr = 0 →
      ds.get_data getMemory memByte = .error (.Other "Dataset pointer is null")) ∧
    (ds.dataset_ptr ≠ 0 → getMemory ds.dataset_ptr = 0 →
      ds.get_data getMemory memByte = .error (.Other "Could not get dataset memory")) ∧
    (ds.dataset_ptr ≠ 0 → getMemory ds.dataset_ptr ≠ 0 →
      ∃ out, ds.get_data getMemory memByte = .ok out ∧
        out.length = ds.dataset_count ∧
        ∀ j, j < ds.dataset_count → out.getD j 0 = memByte (getMemory ds.dataset_ptr + j)) := by
  refine ⟨?_, ?_, ?_⟩
  · intro h0
    simp [RandomXDataset.get_data, h0]
  · intro h0 hm
    simp [RandomXDataset.get_data, h0, hm]
  · intro h0 hm
    refine ⟨(List.range ds.dataset_count).map fun j => memByte (getMemory ds.dataset_ptr + j),
      ?_, ?_, ?_⟩
    · simp [RandomXDataset.get_data, h0, hm]
    · simp
    · intro j hj
      rw [List.getD_eq_getElem _ _ (by simpa using hj), List.getElem_map, List.getElem_range]

/-- Witness for claim C9: a concrete dataset with non-null handle and
    non-null memory pointer. -/
theorem dataset_get_data_spec_witness :
    ∃ out, datasetW.get_data getMemW memByteW = .ok out ∧
      out.length = datasetW.dataset_count ∧
      ∀ j, j < datasetW.dataset_count →
        out.getD j 0 = memByteW (getMemW datasetW.dataset_ptr + j) :=
  (dataset_get_data_spec getMemW memByteW datasetW).2.2 (by decide) (by decide)

/-- Claim C10: whenever the validation matrix passes, `RandomXVM::new`
    returns `Ok` unconditionally, never inspecting the handle produced by
    `randomx_create_vm`; with a native constructor that returns null, the
    resulting VM wraps a null native handle and no `CreationError` is
    surfaced. -/
theorem vm_new_never_inspects_native_handle (flags : RandomXFlag)
    (cache : Option RandomXCache) (dataset : Option RandomXDataset)
    (h1 : ¬(cache = none ∧ dataset = none))
    (h2 : ¬(cache = none ∧ flags.contains RandomXFlag.FLAG_FULL_MEM = false))
    (h3 : ¬(dataset = none ∧ flags.contains RandomXFlag.FLAG_FULL_MEM = true)) :
    RandomXVM.new (fun _ _ _ => 0) flags cache dataset =
      .ok { flags := flags, vm := 0, linked_cache := cache, linked_dataset := dataset } := by
  cases cache with
  | none =>
    cases dataset with
    | none => exact absurd ⟨rfl, rfl⟩ h1
    | some d =>
      have hf : flags.contains RandomXFlag.FLAG_FULL_MEM = true := by
        cases hcf : flags.contains RandomXFlag.FLAG_FULL_MEM
        · exact absurd ⟨rfl, hcf⟩ h2
        · rfl
      simp [RandomXVM.new, RandomXVM.build, hf]
  | some c =>
    cases dataset with
    | none =>
      have hf : flags.contains RandomXFlag.FLAG_FULL_MEM = false := by
        cases hcf : flags.contains RandomXFlag.FLAG_FULL_MEM
        · rfl
        · exact absurd ⟨rfl, hcf⟩ h3
      simp [RandomXVM.new, RandomXVM.build, hf]
    | some d => simp [RandomXVM.new, RandomXVM.build]

/-- Witness for claim C10: a light-mode construction with a null-returning
    native constructor yields `Ok` with a null VM handle. -/
theorem vm_new_never_inspects_native_handle_witness :
    RandomXVM.new (fun _ _ _ => 0) RandomXFlag.FLAG_DEFAULT (some cacheW) none =
      .ok { flags := RandomXFlag.FLAG_DEFAULT, vm := 0, linked_cache := some cacheW,
            linked_dataset := none } :=
  vm_new_never_inspects_native_handle RandomXFlag.FLAG_DEFAULT (some cacheW) none
    (by simp) (by simp) (by decide)

/-- Claim C1: for every non-empty sequence of non-empty inputs, whenever
    `calculate_hash_set` returns digests it returns one per input, in input
    order, each equal to the digest `calculate_hash` returns for that input;
    a single-element sequence degenerates to exactly one `calculate_hash`
    engine call; and for `N ≥ 2` inputs (with non-zero digests) it runs the
    3-stage pipeline over `N + 1` steps: a `first` call starting input 0, a
    `next` call for each input `1 .. N-1` (each also retrieving the previous
    digest), and a final `last` call retrieving the digest of input `N-1`. -/
theorem calculate_hash_set_refines_calculate_hash (H : Bytes → Digest) (input : List Bytes)
    (hne0 : input ≠ []) (hne : ∀ x ∈ input, x ≠ []) :
    (∀ out, (calculate_hash_set H input).2 = Except.ok out →
      out.length = input.length ∧
      ∀ i, i < input.length →
        (calculate_hash H (input.getD i [])).2 = Except.ok (out.getD i [])) ∧
    (input.length = 1 →
      calculate_hash_set H input =
        ([EngineCall.calculate (input.getD 0 [])],
         (calculate_hash H (input.getD 0 [])).2.map fun h => [h])) ∧
    (2 ≤ input.length → (∀ x ∈ input, H x ≠ zeroDigest) →
      calculate_hash_set H input =
        (EngineCall.first (input.getD 0 []) ::
          ((input.drop 1).map EngineCall.next ++ [EngineCall.last]),
         Except.ok (input.map H))) := by
  have hlen : 0 < input.length := List.length_pos.mpr hne0
  have hgd : ∀ i, i < input.length → input.getD i [] ≠ [] := by
    intro i hi
    rw [List.getD_eq_getElem _ _ hi]
    exact hne _ (List.getElem_mem hi)
  have hE : input.isEmpty = false := by simpa using hne0
  refine ⟨?_, ?_, ?_⟩
  · intro out hok
    by_cases h1len : input.length = 1
    · obtain ⟨a, ha⟩ := List.length_eq_one.mp h1len
      subst ha
      have h0 : a ≠ [] := hne a (by simp)
      by_cases hz : H a = zeroDigest
      · simp [calculate_hash_set, calculate_hash, h0, hz] at hok
      · simp [calculate_hash_set, calculate_hash, h0, hz] at hok
        subst hok
        refine ⟨rfl, ?_⟩
        intro i hi
        have hi0 : i = 0 := by omega
        subst hi0
        simp [calculate_hash, h0, hz]
    · have h2 : 2 ≤ input.length := by omega
      have h0 := hgd 0 (by omega)
      rcases hL : hashSetLoop H input 0 (input.length + 1) initialSetState with ⟨sf, o⟩
      cases o with
      | some e => simp [calculate_hash_set, hE, h1len, hL] at hok
      | none =>
        simp [calculate_hash_set, hE, h1len, hL] at hok
        have hstep := hashSetLoop_zero_step H input h2 h0 initialSetState
        rw [hstep] at hL
        obtain ⟨hres, hnz', hne'⟩ := hashSetLoop_ok_inv H input input.length 1 _ sf
          (by omega) (by omega) (by omega) (by simp) hL
        simp only [initialSetState] at hres
        simp at hres
        have hout : out = input.map H := by rw [← hok, hres]
        subst hout
        refine ⟨by simp, ?_⟩
        intro i hi
        have hci : ¬(input[i]?.getD [] = []) := by simpa using hgd i hi
        have hnzi : ¬(H (input[i]?.getD []) = zeroDigest) := by
          simpa using hnz' i (by omega) hi
        have hch : (calculate_hash H (input.getD i [])).2 =
            Except.ok (H (input.getD i [])) := by
          simp [calculate_hash, hci, hnzi]
        rw [hch]
        congr 1
        rw [List.getD_eq_getElem input [] hi,
          List.getD_eq_getElem (List.map H input) [] (by simpa using hi),
          List.getElem_map]
  · intro h1len
    obtain ⟨a, ha⟩ := List.length_eq_one.mp h1len
    subst ha
    have h0 : a ≠ [] := hne a (by simp)
    by_cases hz : H a = zeroDigest <;>
      simp [calculate_hash_set, calculate_hash, Except.map, h0, hz]
  · intro h2 hnzmem
    have h0 := hgd 0 (by omega)
    have h1len : ¬(input.length = 1) := by omega
    have hnz : ∀ j, j < input.length → H (input.getD j []) ≠ zeroDigest := by
      intro j hj
      rw [List.getD_eq_getElem _ _ hj]
      exact hnzmem _ (List.getElem_mem hj)
    have hrun := hashSetLoop_ok H input input.length 1
      { initialSetState with
          pending := some (input.getD 0 []),
          trace := initialSetState.trace ++ [EngineCall.first (input.getD 0 [])] }
      (by omega) (by omega) (by omega) (by simp)
      (fun j hj hjN => hgd j hjN) (fun j hj hjN => hnz j hjN)
    have hloop := (hashSetLoop_zero_step H input h2 h0 initialSetState).trans hrun
    simp only [initialSetState] at hloop
    simp at hloop
    simp [calculate_hash_set, hE, h1len, initialSetState, hloop]

/-- Witness for claim C1: the two-input pipeline under the concrete ones
    oracle runs `first`, `next`, `last` and returns both digests. -/
theorem calculate_hash_set_refines_witness :
    calculate_hash_set onesOracle [[1], [2]] =
      (EngineCall.first [1] :: ([[2]].map EngineCall.next ++ [EngineCall.last]),
       Except.ok ([[1], [2]].map onesOracle)) := by
  have h := (calculate_hash_set_refines_calculate_hash onesOracle [[1], [2]]
    (by decide) (by decide)).2.2 (by decide) (by decide)
  simpa using h

/-- Claim C3 counterexample: for the two-input set `[[1], []]` the first
    input was started (a `first` call was issued, so a computation is in
    flight) when the empty input at index 1 is encountered, yet no flushing
    `last` call is issued before the `ParameterError` return - the source
    flushes only when the output buffer already holds a retrieved digest. -/
theorem hash_set_inflight_not_flushed_at_index_one :
    calculate_hash_set onesOracle [[1], []] =
      ([EngineCall.first [1]], .error (.ParameterError "input was empty")) ∧
    EngineCall.last ∉ (calculate_hash_set onesOracle [[1], []]).1 := by
  refine ⟨rfl, ?_⟩
  decide

/-- Claim C3 (amended): for an input set whose first empty element sits at
    position `p` with `1 ≤ p < N` (all earlier inputs non-empty, all digests
    retrieved before `p` non-zero), `calculate_hash_set` aborts with a
    `ParameterError` and returns no partial results; the pipeline is flushed
    with a final `last` call exactly when a digest had already been retrieved
    into the output buffer, that is, when `2 ≤ p` - for `p = 1` the
    computation started for input 0 is left in flight without a flush. -/
theorem calculate_hash_set_empty_abort (H : Bytes → Digest) (input : List Bytes) (p : Nat)
    (hp1 : 1 ≤ p) (hpN : p < input.length) (hemp : input.getD p [] = [])
    (hne : ∀ j, j < p → input.getD j [] ≠ [])
    (hnz : ∀ j, j + 2 ≤ p → H (input.getD j []) ≠ zeroDigest) :
    calculate_hash_set H input =
      (EngineCall.first (input.getD 0 []) ::
        (((input.drop 1).take (p - 1)).map EngineCall.next ++
          (if 2 ≤ p then [EngineCall.last] else [])),
       .error (.ParameterError "input was empty")) := by
  have h2 : 2 ≤ input.length := by omega
  have h0 : input.getD 0 [] ≠ [] := hne 0 (by omega)
  have hE : input.isEmpty = false := by
    have : input ≠ [] := List.length_pos.mp (by omega)
    simpa using this
  have h1len : ¬(input.length = 1) := by omega
  obtain ⟨herr, htrace⟩ := hashSetLoop_empty_abort H input p hp1 hpN hemp hne hnz
    input.length 1
    { initialSetState with
        pending := some (input.getD 0 []),
        trace := initialSetState.trace ++ [EngineCall.first (input.getD 0 [])] }
    (by omega) (by omega) (by omega) (by simp) (by simp [initialSetState])
  have hstep := hashSetLoop_zero_step H input h2 h0 initialSetState
  rcases hL : hashSetLoop H input 1 input.length
      { initialSetState with
          pending := some (input.getD 0 []),
          trace := initialSetState.trace ++ [EngineCall.first (input.getD 0 [])] }
    with ⟨sf, o⟩
  rw [hL] at herr htrace
  simp only at herr htrace
  have hloop := hstep.trans hL
  subst herr
  simp only [initialSetState] at hloop htrace
  simp at htrace
  simp [calculate_hash_set, hE, h1len, initialSetState, hloop, htrace]

/-- Witness for claim C3 (amended): first empty input at position 2 of four
    inputs - the in-flight pipeline is flushed with a `last` call and a
    `ParameterError` is returned with no results. -/
theorem calculate_hash_set_empty_abort_witness :
    calculate_hash_set onesOracle [[1], [2], [], [9]] =
      ([EngineCall.first [1], EngineCall.next [2], EngineCall.last],
       .error (.ParameterError "input was empty")) := by
  have h := calculate_hash_set_empty_abort onesOracle [[1], [2], [], [9]] 2
    (by omega) (by simp) (by decide)
    (by intro j hj; interval_cases j <;> decide)
    (by intro j hj; have hj0 : j = 0 := by omega
        subst hj0; decide)
  simpa using h

/-- Claim C8: for non-empty input, `calculate_hash` reports `Other` exactly
    when the digest buffer is all-zero after the engine call and otherwise
    returns that digest; and every digest in a successful
    `calculate_hash_set` result was validated non-zero and sits in input
    order (the result is exactly the map of the per-input digests). -/
theorem calculate_hash_zero_digest_validation (H : Bytes → Digest) :
    (∀ input : Bytes, input ≠ [] →
      (H input = zeroDigest →
        (calculate_hash H input).2 = .error (.Other "RandomX calculated hash was empty")) ∧
      (H input ≠ zeroDigest → (calculate_hash H input).2 = .ok (H input))) ∧
    (∀ input out, (calculate_hash_set H input).2 = .ok out →
      (∀ d ∈ out, d ≠ zeroDigest) ∧ out = input.map H) := by
  constructor
  · intro input h0
    constructor <;> intro hz <;> simp [calculate_hash, h0, hz]
  · intro input out hok
    rcases Nat.lt_or_ge input.length 2 with hsmall | h2
    · rcases Nat.lt_or_ge input.length 1 with hzero | hone
      · have hnil : input = [] := by
          cases input with
          | nil => rfl
          | cons a l => simp at hzero
        subst hnil
        simp [calculate_hash_set] at hok
      · have h1len : input.length = 1 := by omega
        obtain ⟨a, ha⟩ := List.length_eq_one.mp h1len
        subst ha
        by_cases h0 : a = []
        · simp [calculate_hash_set, calculate_hash, h0] at hok
        · by_cases hz : H a = zeroDigest
          · simp [calculate_hash_set, calculate_hash, h0, hz] at hok
          · simp [calculate_hash_set, calculate_hash, h0, hz] at hok
            subst hok
            exact ⟨by simpa using hz, by simp⟩
    · have hE : input.isEmpty = false := by
        have : input ≠ [] := List.length_pos.mp (by omega)
        simpa using this
      have h1len : ¬(input.length = 1) := by omega
      by_cases h0 : input.getD 0 [] = []
      · have hbody := hashSetBody_empty_noflush H input 0 initialSetState (by omega) h0 rfl
        have hloop : hashSetLoop H input 0 (input.length + 1) initialSetState =
            (initialSetState, some (RandomXError.ParameterError "input was empty")) := by
          simp only [hashSetLoop, hbody]
        simp [calculate_hash_set, hE, h1len, hloop] at hok
      · rcases hL : hashSetLoop H input 0 (input.length + 1) initialSetState with ⟨sf, o⟩
        cases o with
        | some e => simp [calculate_hash_set, hE, h1len, hL] at hok
        | none =>
          simp [calculate_hash_set, hE, h1len, hL] at hok
          have hstep := hashSetLoop_zero_step H input h2 h0 initialSetState
          rw [hstep] at hL
          obtain ⟨hres, hnz', hne'⟩ := hashSetLoop_ok_inv H input input.length 1 _ sf
            (by omega) (by omega) (by omega) (by simp) hL
          simp only [initialSetState] at hres
          simp at hres
          have hout : out = input.map H := by rw [← hok, hres]
          refine ⟨?_, hout⟩
          intro d hd
          rw [hout] at hd
          rw [List.mem_map] at hd
          obtain ⟨x, hx, rfl⟩ := hd
          obtain ⟨j, hj, rfl⟩ := List.mem_iff_getElem.mp hx
          have hz := hnz' j (by omega) hj
          rwa [List.getD_eq_getElem _ _ hj] at hz

/-- Witness for claim C8: a concrete successful two-input batch has only
    non-zero digests and equals the per-input digest map. -/
theorem calculate_hash_zero_digest_validation_witness :
    (∀ d ∈ [onesOracle [1], onesOracle [2]], d ≠ zeroDigest) ∧
    ([onesOracle [1], onesOracle [2]] : List Digest) = [[1], [2]].map onesOracle := by
  have hok : (calculate_hash_set onesOracle [[1], [2]]).2 =
      .ok [onesOracle [1], onesOracle [2]] := rfl
  exact (calculate_hash_zero_digest_validation onesOracle).2 [[1], [2]] _ hok

end RandomXRS
